import Mathlib

/-
  Verification development for the gemini-mcp repository (a TypeScript MCP
  server exposing three Gemini-backed tools: generate_media, analyze_media,
  manipulate_media).

  The definitions below are a shallow embedding of the executable logic of
  the repository:
  * `src/src/client/gemini-client.ts` (the GeminiClient wired into the
    server) and the image-generating client variant (unnamed source file,
    `generateImage` with MIME-based extension logic);
  * `src/src/mcp/tools/generate-media.ts`, `analyze-media.ts`,
    `manipulate-media.ts` (tool handlers);
  * `src/src/types/index.ts` (GeminiMcpServer: initializeClient and the
    CallToolRequestSchema handler).

  External effects are made explicit:
  * the filesystem is a `World` value (association list of path/contents,
    plus a predicate saying which paths are writable);
  * the Gemini API is a `Backend` record of response functions; throwing
    network calls are `Except.error`;
  * Node's `path.posix.join` / `path.extname` are modelled segment-wise,
    including `.`/`..` normalization;
  * JavaScript string truthiness (`undefined` and `""` are falsy) is
    modelled by `truthy` on `Option String`.
-/

set_option autoImplicit false
set_option linter.unusedVariables false

/-! ## String primitives (JavaScript `startsWith` / `endsWith` semantics) -/

/-- Characters of a string concatenation.  `String.append` concatenates the
underlying character lists. -/
theorem strData_append (a b : String) : (a ++ b).data = a.data ++ b.data := rfl

/-- Model of JavaScript `s.startsWith(pre)`. -/
def strStartsWith (s pre : String) : Bool :=
  pre.data.isPrefixOf s.data

/-- Model of JavaScript `s.endsWith(post)`. -/
def strEndsWith (s post : String) : Bool :=
  post.data.isSuffixOf s.data

/-- Model of JavaScript string truthiness for an optional string argument:
`undefined` and the empty string are falsy, every other string is truthy. -/
def truthy : Option String → Bool
  | none => false
  | some s => s != ""

/-- Model of the JavaScript idiom `x || d` applied to an optional string:
the default is taken when the value is `undefined` or `""`. -/
def orDefault (o : Option String) (d : String) : String :=
  match o with
  | none => d
  | some s => if s != "" then s else d

theorem truthy_iff (o : Option String) :
    truthy o = true ↔ ∃ s, o = some s ∧ s ≠ "" := by
  cases o with
  | none => simp [truthy]
  | some s => simp [truthy]

/-! ## Model of Node `path.posix`: splitting on slashes, normalization -/

/-- Split a character list at every `'/'` (model of JavaScript
`s.split('/')`); the result is never empty. -/
def splitChars : List Char → List (List Char)
  | [] => [[]]
  | c :: cs =>
    match splitChars cs with
    | [] => [[]]
    | r :: rs => if c = '/' then [] :: r :: rs else (c :: r) :: rs

theorem splitChars_ne_nil (l : List Char) : splitChars l ≠ [] := by
  cases l with
  | nil => simp [splitChars]
  | cons c cs =>
    simp only [splitChars]
    cases splitChars cs with
    | nil => simp
    | cons r rs =>
      by_cases h : c = '/' <;> simp [h]

/-- Model of JavaScript `s.split('/')`. -/
def splitSlash (s : String) : List String :=
  (splitChars s.data).map String.mk

/-- A path segment that survives normalization (not empty, not `.`). -/
def goodSeg (s : String) : Bool :=
  s != "" && s != "."

/-- Stack-based segment normalization, as performed by Node
`path.posix.normalize`: empty and `.` segments are dropped, `..` pops the
last segment (or is dropped at the root of an absolute path, or kept at the
head of a relative path).  The accumulator holds the segments in reverse
order. -/
def normAcc (abs : Bool) (acc : List String) : List String → List String
  | [] => acc
  | s :: rest =>
    if s == "" || s == "." then normAcc abs acc rest
    else if s == ".." then
      match acc with
      | [] => if abs then normAcc abs [] rest else normAcc abs [".."] rest
      | t :: acc2 =>
        if t == ".." then normAcc abs (".." :: t :: acc2) rest
        else normAcc abs acc2 rest
    else normAcc abs (s :: acc) rest

/-- Join segments with `/`. -/
def joinWith : List String → String
  | [] => ""
  | [s] => s
  | s :: r :: rest => s ++ "/" ++ joinWith (r :: rest)

/-- Render a normalized segment stack back into a path string (model of the
tail of Node `path.posix.normalize`). -/
def renderPath (abs trail : Bool) (stack : List String) : String :=
  let core := joinWith stack
  if core == "" then (if abs then "/" else ".")
  else ((if abs then "/" ++ core else core) ++ (if trail then "/" else ""))

/-- Model of Node `path.posix.join(a, b)`: concatenate with a slash and
normalize.  Splitting the concatenation `a ++ "/" ++ b` on `/` yields
exactly the segments of `a` followed by the segments of `b`, which is how
the segments are computed here. -/
def pathJoin (a b : String) : String :=
  if a == "" && b == "" then "."
  else
    let abs := strStartsWith (if a == "" then b else a) "/"
    let trail := strEndsWith (if b == "" then a else b) "/"
    let segs := (if a == "" then [] else splitSlash a) ++
      (if b == "" then [] else splitSlash b)
    renderPath abs trail (normAcc abs [] segs).reverse

/-- `p` lies strictly inside directory `dir`: `dir ++ "/"` is a literal
prefix of `p`. -/
def isUnder (dir p : String) : Bool :=
  strStartsWith p (dir ++ "/")

/-! ## Model of Node `path.extname` -/

/-- Index of the last occurrence of `c` in `l`. -/
def lastIdxOf (c : Char) (l : List Char) : Option Nat :=
  match l.reverse.findIdx? (fun x => x == c) with
  | none => none
  | some r => some (l.length - 1 - r)

/-- Model of Node `path.posix.extname`: the extension of the basename, from
its last dot; a dot that starts the basename does not begin an extension,
and the basename `..` has no extension. -/
def extname (p : String) : String :=
  let base := ((splitChars p.data).reverse).headD []
  match lastIdxOf '.' base with
  | none => ""
  | some 0 => ""
  | some i => if base == ['.', '.'] then "" else String.mk (base.drop i)

/-- ASCII lowercasing of a string (model of JavaScript `toLowerCase` on the
extension strings that occur here). -/
def toLowerStr (s : String) : String :=
  String.mk (s.data.map Char.toLower)

-- sanity checks for the path model (Node semantics)
example : pathJoin "/tmp/gemini_mcp" "out.txt" = "/tmp/gemini_mcp/out.txt" := by decide
example : pathJoin "/tmp/gemini_mcp" "../escape.txt" = "/tmp/escape.txt" := by decide
example : pathJoin "/tmp/gemini_mcp" "a/../b.png" = "/tmp/gemini_mcp/b.png" := by decide
example : pathJoin "/tmp/gemini_mcp" "/abs.txt" = "/tmp/gemini_mcp/abs.txt" := by decide
example : extname "foo.PNG" = ".PNG" := by decide
example : extname "/a/b/.bashrc" = "" := by decide
example : extname "a/.." = "" := by decide
example : extname "foo." = "." := by decide
example : toLowerStr ".PNG" = ".png" := by decide

/-! ## Base64 (Node `Buffer` conversions) -/

/-- The base64 alphabet. -/
def b64Alpha : List Char :=
  "ABCDEFGHIJKLMNOPQRSTUVWXYZabcdefghijklmnopqrstuvwxyz0123456789+/".data

/-- Character at index `i` of the base64 alphabet. -/
def b64Char (i : Nat) : Char :=
  b64Alpha.getD i 'A'

/-- Base64-encode a byte list (model of `buf.toString('base64')`). -/
def b64encode : List Nat → String
  | [] => ""
  | [a] =>
    String.mk [b64Char (a / 4), b64Char (a % 4 * 16), '=', '=']
  | [a, b] =>
    String.mk [b64Char (a / 4), b64Char (a % 4 * 16 + b / 16),
      b64Char (b % 16 * 4), '=']
  | a :: b :: c :: rest =>
    String.mk [b64Char (a / 4), b64Char (a % 4 * 16 + b / 16),
      b64Char (b % 16 * 4 + c / 64), b64Char (c % 64)] ++ b64encode rest

/-- Value of a base64 digit, `none` for padding and foreign characters. -/
def b64val (c : Char) : Option Nat :=
  b64Alpha.findIdx? (fun x => x == c)

/-- Decode a list of base64 digit values into bytes. -/
def b64decodeVals : List Nat → List Nat
  | a :: b :: c :: d :: rest =>
    (a * 4 + b / 16) :: (b % 16 * 16 + c / 4) :: (c % 4 * 64 + d) ::
      b64decodeVals rest
  | [a, b, c] => [a * 4 + b / 16, b % 16 * 16 + c / 4]
  | [a, b] => [a * 4 + b / 16]
  | _ => []

/-- Base64-decode a string into bytes (model of
`Buffer.from(data, 'base64')`; like Node, characters outside the alphabet
and padding are skipped). -/
def b64decode (s : String) : List Nat :=
  b64decodeVals (s.data.filterMap b64val)

-- round-trip sanity check
example : b64encode [104, 101, 108, 108, 111] = "aGVsbG8=" := by decide
example : b64decode "aGVsbG8=" = [104, 101, 108, 108, 111] := by decide

/-! ## Filesystem world -/

/-- Contents of a file: a text file (written from a string) or a binary
file (written from a `Buffer`, represented as its byte list). -/
inductive FileData where
  | text (s : String)
  | binary (bytes : List Nat)
  deriving DecidableEq

/-- The observable filesystem state threaded through every operation.
`fs` maps paths to contents (most recent write first), `dirs` records
directories created with `mkdir`, and `writeOk` says which paths the
process may write (a write to a path with `writeOk = false` raises, which
the client catches). -/
structure World where
  fs : List (String × FileData)
  dirs : List String
  writeOk : String → Bool

/-- Error message raised by reading a path that does not exist (the exact
wording of the Node message is implementation-defined). -/
def enoentMsg (p : String) : String :=
  "ENOENT: no such file or directory, open " ++ p

/-- Error message raised by a failing write. -/
def eaccesMsg (p : String) : String :=
  "EACCES: permission denied, open " ++ p

/-- Model of `fs.readFile` (promise rejection is `Except.error`). -/
def readFileFS (w : World) (p : String) : Except String FileData :=
  match w.fs.lookup p with
  | some d => Except.ok d
  | none => Except.error (enoentMsg p)

/-- Model of `fs.writeFile` (promise rejection is `Except.error`). -/
def writeFileFS (w : World) (p : String) (d : FileData) : Except String World :=
  if w.writeOk p then
    Except.ok { fs := (p, d) :: w.fs, dirs := w.dirs, writeOk := w.writeOk }
  else Except.error (eaccesMsg p)

/-- Bytes sent to the API for a file's contents
(`fileBuffer.toString('base64')`): text files are base64-encoded from their
UTF-8 bytes, binary files from their bytes. -/
def fileToBase64 : FileData → String
  | FileData.text s => b64encode (s.toUTF8.toList.map UInt8.toNat)
  | FileData.binary bs => b64encode bs

/-! ## The external Gemini API -/

/-- One `inlineData` part of an image-generation candidate. -/
structure InlineData where
  data : String
  mimeType : Option String
  deriving DecidableEq

/-- One part of a candidate's content. -/
structure ApiPart where
  inlineData : Option InlineData
  deriving DecidableEq

/-- One response candidate (its `content.parts`). -/
structure Candidate where
  parts : List ApiPart
  deriving DecidableEq

/-- Response of the image-generation model: `response.candidates`. -/
structure ImageApiResponse where
  candidates : List Candidate
  deriving DecidableEq

/-- The external Gemini service, the system's opaque collaborator.  Each
field models one request shape; a network or API failure is
`Except.error` (a rejected promise).
* `generateText prompt`: `model.generateContent(prompt)` followed by
  `response.text()`;
* `generateImageApi prompt`: `imageModel.generateContent([prompt])`;
* `analyze prompt base64Data mimeType`:
  `model.generateContent([prompt, {inlineData}])` followed by
  `response.text()` (used by both analyzeMedia and manipulateMedia). -/
structure Backend where
  generateText : String → Except String String
  generateImageApi : String → Except String ImageApiResponse
  analyze : String → String → String → Except String String

/-! ## GeminiClient -/

/-- The `data` payload of a `GeminiResponse`, one variant per object shape
occurring in the source (`{text}`, `{analysis}`, `{result}`,
`{mimeType, size, extension}`). -/
inductive Payload where
  | textPayload (text : String)
  | analysisPayload (analysis : String)
  | resultPayload (result : String)
  | imagePayload (mimeType : String) (size : Nat) (extension : String)
  deriving DecidableEq

/-- `GeminiResponse` from `src/types/index.ts`. -/
structure GeminiResponse where
  success : Bool
  message : String
  outputPath : Option String
  data : Option Payload
  deriving DecidableEq

/-- `GeminiConfig` from `src/types/index.ts`. -/
structure GeminiConfig where
  apiKey : String
  model : Option String
  outputDir : Option String

/-- The constructed client: the state the `GeminiClient` constructor
captures (the model handles are summarized by the chosen model name). -/
structure Client where
  modelName : String
  outputDir : String

/-- The `GeminiClient` constructor: throws when `config.apiKey` is falsy,
otherwise captures the model name (defaulted to `gemini-2.5-flash`) and the
output directory (defaulted to `/tmp/gemini_mcp`). -/
def mkClient (config : GeminiConfig) : Except String Client :=
  if config.apiKey == "" then Except.error "Gemini API key is required"
  else Except.ok
    { modelName := orDefault config.model "gemini-2.5-flash",
      outputDir := orDefault config.outputDir "/tmp/gemini_mcp" }

/-- `ensureOutputDir`: `fs.mkdir(outputDir, {recursive: true})`; a failure
is logged to stderr and swallowed, so this never raises. -/
def ensureOutputDir (c : Client) (w : World) : World :=
  { fs := w.fs, dirs := c.outputDir :: w.dirs, writeOk := w.writeOk }

/-- `GeminiClient.getMimeType`: extension-table lookup from
`src/client/gemini-client.ts`. -/
def mimeTypesTable : List (String × String) :=
  [(".jpg", "image/jpeg"), (".jpeg", "image/jpeg"), (".png", "image/png"),
   (".gif", "image/gif"), (".webp", "image/webp"), (".mp4", "video/mp4"),
   (".mpeg", "video/mpeg"), (".mov", "video/mov"), (".avi", "video/avi"),
   (".webm", "video/webm"), (".mp3", "audio/mp3"), (".wav", "audio/wav"),
   (".aac", "audio/aac")]

/-- `getMimeType(filePath)`: look the lowercased `path.extname` up in the
table, `application/octet-stream` when absent (`mimeTypes[ext] || '...'`;
every table value is non-empty, so `||` is an `Option.getD`). -/
def getMimeType (filePath : String) : String :=
  (mimeTypesTable.lookup (toLowerStr (extname filePath))).getD
    "application/octet-stream"

/-- `GeminiClient.generateImage` from `src/src/client/gemini-client.ts`
(the client the server imports): sends the prompt to the text model and
writes the response text verbatim to `path.join(outputDir, outputFile)`;
any raise inside the `try` is caught and returned as a failure response. -/
def generateImage (c : Client) (bk : Backend) (w : World)
    (prompt outputFile : String) : GeminiResponse × World :=
  let w1 := ensureOutputDir c w
  match bk.generateText prompt with
  | Except.error e =>
    ({ success := false, message := "Generation failed: " ++ e,
       outputPath := none, data := none }, w1)
  | Except.ok text =>
    let outputPath := pathJoin c.outputDir outputFile
    match writeFileFS w1 outputPath (FileData.text text) with
    | Except.error e =>
      ({ success := false, message := "Generation failed: " ++ e,
         outputPath := none, data := none }, w1)
    | Except.ok w2 =>
      ({ success := true, message := "Content generated successfully",
         outputPath := some outputPath,
         data := some (Payload.textPayload text) }, w2)

/-- `GeminiClient.analyzeMedia`: reads the file, base64-encodes it, infers
the MIME type from the extension, sends `[prompt, inlineData]` and returns
the response text inline; any raise is caught and returned as a failure
with the message embedded. -/
def analyzeMedia (c : Client) (bk : Backend) (w : World)
    (filePath prompt : String) : GeminiResponse × World :=
  match readFileFS w filePath with
  | Except.error e =>
    ({ success := false, message := "Analysis failed: " ++ e,
       outputPath := none, data := none }, w)
  | Except.ok fileBuffer =>
    let base64Data := fileToBase64 fileBuffer
    let mimeType := getMimeType filePath
    match bk.analyze prompt base64Data mimeType with
    | Except.error e =>
      ({ success := false, message := "Analysis failed: " ++ e,
         outputPath := none, data := none }, w)
    | Except.ok text =>
      ({ success := true, message := "Media analyzed successfully",
         outputPath := none,
         data := some (Payload.analysisPayload text) }, w)

/-- `GeminiClient.manipulateMedia`: same input handling as analyzeMedia,
but the response text is written to `path.join(outputDir, outputFile)`. -/
def manipulateMedia (c : Client) (bk : Backend) (w : World)
    (inputFile prompt outputFile : String) : GeminiResponse × World :=
  let w1 := ensureOutputDir c w
  match readFileFS w1 inputFile with
  | Except.error e =>
    ({ success := false, message := "Manipulation failed: " ++ e,
       outputPath := none, data := none }, w1)
  | Except.ok fileBuffer =>
    let base64Data := fileToBase64 fileBuffer
    let mimeType := getMimeType inputFile
    match bk.analyze prompt base64Data mimeType with
    | Except.error e =>
      ({ success := false, message := "Manipulation failed: " ++ e,
         outputPath := none, data := none }, w1)
    | Except.ok text =>
      let outputPath := pathJoin c.outputDir outputFile
      match writeFileFS w1 outputPath (FileData.text text) with
      | Except.error e =>
        ({ success := false, message := "Manipulation failed: " ++ e,
           outputPath := none, data := none }, w1)
      | Except.ok w2 =>
        ({ success := true, message := "Media manipulation completed",
           outputPath := some outputPath,
           data := some (Payload.resultPayload text) }, w2)

/-- First part carrying `inlineData` (the `for (const part of parts)`
loop of the image-generating `generateImage` variant). -/
def findInline : List ApiPart → Option InlineData
  | [] => none
  | p :: rest =>
    match p.inlineData with
    | some d => some d
    | none => findInline rest

/-- `mimeType.split('/')[1] || 'png'`. -/
def extFromMime (m : String) : String :=
  match (splitSlash m).drop 1 with
  | [] => "png"
  | e :: _ => if e != "" then e else "png"

/-- `generateImage` of the image-generating client variant (unnamed source
file): calls the image model, extracts the first `inlineData` part, decodes
its base64 payload, derives a file extension from the MIME type and appends
it to `outputFile` unless the name already ends with it, then writes the
bytes. -/
def generateImageV2 (c : Client) (bk : Backend) (w : World)
    (prompt outputFile : String) : GeminiResponse × World :=
  let w1 := ensureOutputDir c w
  match bk.generateImageApi prompt with
  | Except.error e =>
    ({ success := false, message := "Generation failed: " ++ e,
       outputPath := none, data := none }, w1)
  | Except.ok response =>
    match response.candidates with
    | [] =>
      ({ success := false, message := "No image generated",
         outputPath := none, data := none }, w1)
    | cand :: _ =>
      match findInline cand.parts with
      | none =>
        ({ success := false, message := "No image data found in response",
           outputPath := none, data := none }, w1)
      | some d =>
        let imageData := b64decode d.data
        let mimeType := orDefault d.mimeType "image/png"
        let extension := extFromMime mimeType
        let fname :=
          if strEndsWith outputFile ("." ++ extension) then outputFile
          else outputFile ++ "." ++ extension
        let outputPath := pathJoin c.outputDir fname
        match writeFileFS w1 outputPath (FileData.binary imageData) with
        | Except.error e =>
          ({ success := false, message := "Generation failed: " ++ e,
             outputPath := none, data := none }, w1)
        | Except.ok w2 =>
          ({ success := true, message := "Image generated successfully",
             outputPath := some outputPath,
             data := some (Payload.imagePayload mimeType imageData.length
               extension) }, w2)

/-! ## Tool handlers (`src/mcp/tools/*.ts`) -/

/-- The untyped `arguments` mapping of a `tools/call` request, restricted
to the four parameter names the three handlers destructure; an absent key
is `none`. -/
structure ToolArgs where
  prompt : Option String
  outputFile : Option String
  filePath : Option String
  inputFile : Option String
  deriving DecidableEq

/-- A `{type: "text", text}` content block of the response envelope. -/
structure ContentBlock where
  type : String
  text : String
  deriving DecidableEq

/-- Projection `result.data.analysis` used by the analyze handler; only
the `{analysis}` shape reaches it on the success path. -/
def payloadAnalysisText : Option Payload → String
  | some (Payload.analysisPayload a) => a
  | _ => ""

/-- `generateMediaTool`: validates `prompt` and `outputFile` with a JS
truthiness test (a throw is `Except.error`), calls
`client.generateImage`, and wraps the outcome: the bare output path on
success, `Error: <message>` text otherwise. -/
def generateMediaTool (c : Client) (bk : Backend) (w : World)
    (args : ToolArgs) : Except String (List ContentBlock × World) :=
  if truthy args.prompt = false then Except.error "prompt is required"
  else if truthy args.outputFile = false then
    Except.error "outputFile is required"
  else
    let r := generateImage c bk w (args.prompt.getD "") (args.outputFile.getD "")
    if r.1.success && truthy r.1.outputPath then
      Except.ok ([{ type := "text", text := r.1.outputPath.getD "" }], r.2)
    else
      Except.ok ([{ type := "text", text := "Error: " ++ r.1.message }], r.2)

/-- `analyzeMediaTool`: validates `filePath` and `prompt`, calls
`client.analyzeMedia`, and returns the inline analysis text on success
(`result.success && result.data`), `Error: <message>` otherwise. -/
def analyzeMediaTool (c : Client) (bk : Backend) (w : World)
    (args : ToolArgs) : Except String (List ContentBlock × World) :=
  if truthy args.filePath = false then Except.error "filePath is required"
  else if truthy args.prompt = false then Except.error "prompt is required"
  else
    let r := analyzeMedia c bk w (args.filePath.getD "") (args.prompt.getD "")
    if r.1.success && r.1.data.isSome then
      Except.ok ([{ type := "text", text := payloadAnalysisText r.1.data }], r.2)
    else
      Except.ok ([{ type := "text", text := "Error: " ++ r.1.message }], r.2)

/-- `manipulateMediaTool`: validates `inputFile`, `prompt` and
`outputFile`, calls `client.manipulateMedia`, and returns the bare output
path on success, `Error: <message>` otherwise. -/
def manipulateMediaTool (c : Client) (bk : Backend) (w : World)
    (args : ToolArgs) : Except String (List ContentBlock × World) :=
  if truthy args.inputFile = false then Except.error "inputFile is required"
  else if truthy args.prompt = false then Except.error "prompt is required"
  else if truthy args.outputFile = false then
    Except.error "outputFile is required"
  else
    let r := manipulateMedia c bk w (args.inputFile.getD "")
      (args.prompt.getD "") (args.outputFile.getD "")
    if r.1.success && truthy r.1.outputPath then
      Except.ok ([{ type := "text", text := r.1.outputPath.getD "" }], r.2)
    else
      Except.ok ([{ type := "text", text := "Error: " ++ r.1.message }], r.2)

/-! ## The server's tools/call dispatch (`src/types/index.ts`,
`setupHandlers`) -/

/-- The environment variables read by `initializeClient`. -/
structure Env where
  apiKey : Option String
  model : Option String
  outputDir : Option String

/-- The three registered tool names, in catalog order. -/
def toolNames : List String :=
  ["generate_media", "analyze_media", "manipulate_media"]

/-- `GeminiMcpServer.initializeClient`: throws when `GEMINI_API_KEY` is
falsy, otherwise constructs the `GeminiClient` with
`outputDir: process.env.GEMINI_OUTPUT_DIR || '/tmp/gemini_mcp'` (the
constructor applies its own defaults a second time). -/
def initializeClient (env : Env) : Except String Client :=
  if truthy env.apiKey = false then
    Except.error "GEMINI_API_KEY environment variable is required"
  else
    mkClient { apiKey := env.apiKey.getD "", model := env.model,
               outputDir := some (orDefault env.outputDir "/tmp/gemini_mcp") }

/-- Effective output directory of the constructed client. -/
def effOutputDir (env : Env) : String :=
  orDefault env.outputDir "/tmp/gemini_mcp"

/-- Result of one `tools/call` request as seen at the transport:
either a normal response envelope (a list of content blocks), or a
protocol-level (JSON-RPC) error produced by an exception that escaped the
request handler. -/
inductive CallResult where
  | envelope (content : List ContentBlock) (w : World)
  | protocolError (message : String) (w : World)

/-- `true` exactly on the transport-level error alternative. -/
def CallResult.isProtocolError : CallResult → Bool
  | CallResult.envelope _ _ => false
  | CallResult.protocolError _ _ => true

/-- The `CallToolRequestSchema` handler of `setupHandlers`:
`initializeClient()` runs BEFORE the `try` block, so its exception escapes
the handler and surfaces as a protocol-level error; inside the `try`, the
switch dispatches on the tool name (an unknown name throws
`Unknown tool: <name>`), and the `catch` converts any throw into a normal
envelope whose single text block is `Error: <message>`. -/
def handleCallTool (env : Env) (bk : Backend) (w : World)
    (name : String) (args : ToolArgs) : CallResult :=
  match initializeClient env with
  | Except.error e => CallResult.protocolError e w
  | Except.ok client =>
    let attempt : Except String (List ContentBlock × World) :=
      if name == "generate_media" then generateMediaTool client bk w args
      else if name == "analyze_media" then analyzeMediaTool client bk w args
      else if name == "manipulate_media" then
        manipulateMediaTool client bk w args
      else Except.error ("Unknown tool: " ++ name)
    match attempt with
    | Except.ok (content, w2) => CallResult.envelope content w2
    | Except.error e =>
      CallResult.envelope [{ type := "text", text := "Error: " ++ e }] w

/-- Required parameter names of each tool, in the order the handler checks
them (matching the `required` arrays of the advertised input schemas). -/
def requiredParams : String → List String
  | "generate_media" => ["prompt", "outputFile"]
  | "analyze_media" => ["filePath", "prompt"]
  | "manipulate_media" => ["inputFile", "prompt", "outputFile"]
  | _ => []

/-- Key-based access into the argument mapping. -/
def argGet (args : ToolArgs) : String → Option String
  | "prompt" => args.prompt
  | "outputFile" => args.outputFile
  | "filePath" => args.filePath
  | "inputFile" => args.inputFile
  | _ => none

/-- Replace one key of the argument mapping. -/
def setArg (args : ToolArgs) (f : String) (v : Option String) : ToolArgs :=
  match f with
  | "prompt" =>
    { prompt := v, outputFile := args.outputFile, filePath := args.filePath,
      inputFile := args.inputFile }
  | "outputFile" =>
    { prompt := args.prompt, outputFile := v, filePath := args.filePath,
      inputFile := args.inputFile }
  | "filePath" =>
    { prompt := args.prompt, outputFile := args.outputFile, filePath := v,
      inputFile := args.inputFile }
  | "inputFile" =>
    { prompt := args.prompt, outputFile := args.outputFile,
      filePath := args.filePath, inputFile := v }
  | _ => args

/-- First required parameter (in check order) whose supplied value is
falsy, if any: the parameter a handler's validation reports. -/
def firstFalsy (args : ToolArgs) : List String → Option String
  | [] => none
  | f :: rest =>
    if truthy (argGet args f) = false then some f else firstFalsy args rest

/-! ## Shared facts about client construction and dispatch -/

/-- The client `initializeClient` constructs when the key is present. -/
def clientOf (env : Env) : Client :=
  { modelName := orDefault env.model "gemini-2.5-flash",
    outputDir := effOutputDir env }

theorem orDefault_orDefault (o : Option String) :
    orDefault (some (orDefault o "/tmp/gemini_mcp")) "/tmp/gemini_mcp" =
      orDefault o "/tmp/gemini_mcp" := by
  cases o with
  | none => simp [orDefault]
  | some s =>
    by_cases h : s = "" <;> simp [orDefault, h]

theorem initializeClient_ok (env : Env) (h : truthy env.apiKey = true) :
    initializeClient env = Except.ok (clientOf env) := by
  obtain ⟨s, hs, hne⟩ := (truthy_iff _).1 h
  simp [initializeClient, truthy, h, mkClient, hs, hne, clientOf,
    effOutputDir, orDefault_orDefault]

/-! ## Claim C9 -/

/-- Claim C9: when the `GEMINI_API_KEY` environment variable is unset,
every `tools/call` request — for any tool name, known or unknown, and any
arguments — throws from `initializeClient` before the error-wrapping `try`
block, so the caller receives a transport-level error and no tool handler
or parameter validation runs (the world is untouched). -/
theorem claim_C9 (env : Env) (bk : Backend) (w : World) (name : String)
    (args : ToolArgs) (h : env.apiKey = none) :
    handleCallTool env bk w name args =
      CallResult.protocolError
        "GEMINI_API_KEY environment variable is required" w := by
  simp [handleCallTool, initializeClient, h, truthy]

/-- Concrete environment with no API key. -/
def envNoKey : Env := { apiKey := none, model := none, outputDir := none }

/-- Concrete environment with an API key and default configuration. -/
def envKey : Env :=
  { apiKey := some "test-key", model := none, outputDir := none }

/-- A stub backend on which every request fails. -/
def bkStub : Backend :=
  { generateText := fun _ => Except.error "stub",
    generateImageApi := fun _ => Except.error "stub",
    analyze := fun _ _ _ => Except.error "stub" }

/-- The empty, fully writable filesystem. -/
def wEmpty : World := { fs := [], dirs := [], writeOk := fun _ => true }

/-- A request with no arguments supplied. -/
def argsEmpty : ToolArgs :=
  { prompt := none, outputFile := none, filePath := none, inputFile := none }

theorem claim_C9_witness :
    handleCallTool envNoKey bkStub wEmpty "generate_media" argsEmpty =
      CallResult.protocolError
        "GEMINI_API_KEY environment variable is required" wEmpty :=
  claim_C9 envNoKey bkStub wEmpty "generate_media" argsEmpty rfl

/-! ## Claim C1 -/

/-- Claim C1 counterexample: with the API key configured, a `tools/call`
whose tool name matches none of the three registered tools does NOT
produce a transport-level error: the `Unknown tool` throw happens inside
the `try` block, is caught, and is returned as a normal response envelope
whose single text block is `Error: Unknown tool: <name>`. -/
theorem claim_C1_counterexample :
    handleCallTool envKey bkStub wEmpty "definitely_not_a_tool" argsEmpty =
      CallResult.envelope
        [{ type := "text", text := "Error: Unknown tool: definitely_not_a_tool" }]
        wEmpty ∧
    CallResult.isProtocolError
      (handleCallTool envKey bkStub wEmpty "definitely_not_a_tool" argsEmpty) =
      false :=
  ⟨rfl, rfl⟩

/-- Claim C1 as amended: with the client initializable (API key present),
an unknown tool name yields a NORMAL response envelope whose single text
content block is `Error: Unknown tool: <name>`; a transport-level error is
not raised for an unknown tool name. -/
theorem claim_C1_amended (env : Env) (bk : Backend) (w : World)
    (name : String) (args : ToolArgs)
    (hkey : truthy env.apiKey = true) (hname : name ∉ toolNames) :
    handleCallTool env bk w name args =
      CallResult.envelope
        [{ type := "text", text := "Error: " ++ ("Unknown tool: " ++ name) }]
        w := by
  simp only [toolNames, List.mem_cons, List.mem_singleton, not_or] at hname
  obtain ⟨hn1, hn2, hn3⟩ := hname
  have e1 : (name == "generate_media") = false := by simp [hn1]
  have e2 : (name == "analyze_media") = false := by simp [hn2]
  have e3 : (name == "manipulate_media") = false := by simp [hn3]
  simp [handleCallTool, initializeClient_ok env hkey, e1, e2, e3]

theorem claim_C1_amended_witness :
    handleCallTool envKey bkStub wEmpty "bogus_tool" argsEmpty =
      CallResult.envelope
        [{ type := "text", text := "Error: " ++ ("Unknown tool: " ++ "bogus_tool") }]
        wEmpty :=
  claim_C1_amended envKey bkStub wEmpty "bogus_tool" argsEmpty (by decide)
    (by decide)

/-! ## Parameter validation (claims C2 and C10) -/

/-- When the first falsy required parameter (in check order) of a known
tool is `f`, the call returns a normal envelope whose single text block is
`Error: <f> is required`. -/
theorem handle_firstFalsy (env : Env) (bk : Backend) (w : World)
    (name : String) (args : ToolArgs) (f : String)
    (hkey : truthy env.apiKey = true) (hname : name ∈ toolNames)
    (hf : firstFalsy args (requiredParams name) = some f) :
    handleCallTool env bk w name args =
      CallResult.envelope
        [{ type := "text", text := "Error: " ++ (f ++ " is required") }] w := by
  simp only [toolNames, List.mem_cons, List.mem_singleton,
    List.not_mem_nil, or_false] at hname
  rcases hname with h | h | h
  · subst h
    simp only [requiredParams, firstFalsy, argGet] at hf
    by_cases hp : truthy args.prompt = false
    · simp only [hp, if_true, Option.some.injEq] at hf
      subst hf
      simp [handleCallTool, initializeClient_ok env hkey, generateMediaTool, hp]
    · by_cases ho : truthy args.outputFile = false
      · simp [hp, ho] at hf
        subst hf
        simp [handleCallTool, initializeClient_ok env hkey,
          generateMediaTool, hp, ho]
      · simp [hp, ho] at hf
  · subst h
    simp only [requiredParams, firstFalsy, argGet] at hf
    by_cases hfp : truthy args.filePath = false
    · simp only [hfp, if_true, Option.some.injEq] at hf
      subst hf
      simp [handleCallTool, initializeClient_ok env hkey, analyzeMediaTool, hfp]
    · by_cases hp : truthy args.prompt = false
      · simp [hfp, hp] at hf
        subst hf
        simp [handleCallTool, initializeClient_ok env hkey,
          analyzeMediaTool, hfp, hp]
      · simp [hfp, hp] at hf
  · subst h
    simp only [requiredParams, firstFalsy, argGet] at hf
    by_cases hi : truthy args.inputFile = false
    · simp only [hi, if_true, Option.some.injEq] at hf
      subst hf
      simp [handleCallTool, initializeClient_ok env hkey,
        manipulateMediaTool, hi]
    · by_cases hp : truthy args.prompt = false
      · simp [hi, hp] at hf
        subst hf
        simp [handleCallTool, initializeClient_ok env hkey,
          manipulateMediaTool, hi, hp]
      · by_cases ho : truthy args.outputFile = false
        · simp [hi, hp, ho] at hf
          subst hf
          simp [handleCallTool, initializeClient_ok env hkey,
            manipulateMediaTool, hi, hp, ho]
        · simp [hi, hp, ho] at hf

/-- The first falsy required parameter exists as soon as some required
parameter is falsy, and it is itself falsy. -/
theorem firstFalsy_spec (args : ToolArgs) (l : List String) (f : String)
    (hf : f ∈ l) (hfal : truthy (argGet args f) = false) :
    ∃ g, firstFalsy args l = some g ∧ g ∈ l ∧
      truthy (argGet args g) = false := by
  induction l with
  | nil => cases hf
  | cons a t ih =>
    by_cases ha : truthy (argGet args a) = false
    · exact ⟨a, by simp [firstFalsy, ha], List.mem_cons_self a t, ha⟩
    · rcases List.mem_cons.1 hf with h | h
      · subst h; exact absurd hfal ha
      · obtain ⟨g, hg1, hg2, hg3⟩ := ih h
        exact ⟨g, by simp [firstFalsy, ha, hg1],
          List.mem_cons_of_mem a hg2, hg3⟩

/-! ## Claim C2 -/

/-- Claim C2: for each of the three tools, invoking it with a required
parameter absent yields a normal (successful-envelope) response whose
single text content block is exactly `Error: <g> is required` for a
required parameter `g` whose value is missing-or-empty — no
transport-level error is raised; and whenever the absent parameter is the
first one the handler's checks reach, it is that very parameter that the
error names. -/
theorem claim_C2 (env : Env) (bk : Backend) (w : World) (name : String)
    (args : ToolArgs) (f : String) (hkey : truthy env.apiKey = true)
    (hname : name ∈ toolNames) (hf : f ∈ requiredParams name)
    (habs : argGet args f = none) :
    ∃ g, g ∈ requiredParams name ∧ truthy (argGet args g) = false ∧
      handleCallTool env bk w name args =
        CallResult.envelope
          [{ type := "text", text := "Error: " ++ (g ++ " is required") }] w ∧
      (firstFalsy args (requiredParams name) = some f → g = f) := by
  have hfal : truthy (argGet args f) = false := by rw [habs]; rfl
  obtain ⟨g, hg1, hg2, hg3⟩ :=
    firstFalsy_spec args (requiredParams name) f hf hfal
  refine ⟨g, hg2, hg3,
    handle_firstFalsy env bk w name args g hkey hname hg1, ?_⟩
  intro hff
  rw [hg1] at hff
  exact Option.some.inj hff

/-- A generate_media request whose `prompt` is absent. -/
def argsOutOnly : ToolArgs :=
  { prompt := none, outputFile := some "out.txt", filePath := none,
    inputFile := none }

theorem claim_C2_witness :
    handleCallTool envKey bkStub wEmpty "generate_media" argsOutOnly =
      CallResult.envelope
        [{ type := "text", text := "Error: " ++ ("prompt" ++ " is required") }]
        wEmpty := by
  obtain ⟨g, hmem, hfal, heq, huniq⟩ :=
    claim_C2 envKey bkStub wEmpty "generate_media" argsOutOnly "prompt"
      (by decide) (by decide) (by decide) (by decide)
  have hg : g = "prompt" := huniq (by decide)
  rw [hg] at heq
  exact heq

/-! ## Claim C10 -/

/-- Claim C10: supplying a required parameter as the empty string is
treated identically to omitting it — the whole `tools/call` result is
unchanged when the empty-string argument is replaced by an absent one —
and when that parameter is the first falsy one in check order the caller
receives the normal envelope `Error: <f> is required`. -/
theorem claim_C10 (env : Env) (bk : Backend) (w : World) (name : String)
    (args : ToolArgs) (f : String) (hkey : truthy env.apiKey = true)
    (hname : name ∈ toolNames) (hf : f ∈ requiredParams name)
    (hemp : argGet args f = some "") :
    handleCallTool env bk w name args =
      handleCallTool env bk w name (setArg args f none) ∧
    (firstFalsy args (requiredParams name) = some f →
      handleCallTool env bk w name args =
        CallResult.envelope
          [{ type := "text", text := "Error: " ++ (f ++ " is required") }] w) := by
  refine ⟨?_, fun hff => handle_firstFalsy env bk w name args f hkey hname hff⟩
  have hname' := hname
  simp only [toolNames, List.mem_cons, List.mem_singleton,
    List.not_mem_nil, or_false] at hname'
  rcases hname' with h | h | h
  · subst h
    simp only [requiredParams, List.mem_cons, List.mem_singleton,
      List.not_mem_nil, or_false] at hf
    rcases hf with h | h
    · subst h
      simp only [argGet] at hemp
      simp [handleCallTool, initializeClient_ok env hkey, generateMediaTool,
        setArg, hemp, truthy]
    · subst h
      simp only [argGet] at hemp
      by_cases hp : truthy args.prompt = false
      · simp [handleCallTool, initializeClient_ok env hkey,
          generateMediaTool, setArg, hp]
      · simp [handleCallTool, initializeClient_ok env hkey,
          generateMediaTool, setArg, hemp, hp, truthy]
  · subst h
    simp only [requiredParams, List.mem_cons, List.mem_singleton,
      List.not_mem_nil, or_false] at hf
    rcases hf with h | h
    · subst h
      simp only [argGet] at hemp
      simp [handleCallTool, initializeClient_ok env hkey, analyzeMediaTool,
        setArg, hemp, truthy]
    · subst h
      simp only [argGet] at hemp
      by_cases hfp : truthy args.filePath = false
      · simp [handleCallTool, initializeClient_ok env hkey,
          analyzeMediaTool, setArg, hfp]
      · simp [handleCallTool, initializeClient_ok env hkey,
          analyzeMediaTool, setArg, hemp, hfp, truthy]
  · subst h
    simp only [requiredParams, List.mem_cons, List.mem_singleton,
      List.not_mem_nil, or_false] at hf
    rcases hf with h | h | h
    · subst h
      simp only [argGet] at hemp
      simp [handleCallTool, initializeClient_ok env hkey,
        manipulateMediaTool, setArg, hemp, truthy]
    · subst h
      simp only [argGet] at hemp
      by_cases hi : truthy args.inputFile = false
      · simp [handleCallTool, initializeClient_ok env hkey,
          manipulateMediaTool, setArg, hi]
      · simp [handleCallTool, initializeClient_ok env hkey,
          manipulateMediaTool, setArg, hemp, hi, truthy]
    · subst h
      simp only [argGet] at hemp
      by_cases hi : truthy args.inputFile = false
      · simp [handleCallTool, initializeClient_ok env hkey,
          manipulateMediaTool, setArg, hi]
      · by_cases hp : truthy args.prompt = false
        · simp [handleCallTool, initializeClient_ok env hkey,
            manipulateMediaTool, setArg, hi, hp]
        · simp [handleCallTool, initializeClient_ok env hkey,
            manipulateMediaTool, setArg, hemp, hi, hp, truthy]

/-- A manipulate_media request whose `prompt` is the empty string. -/
def argsEmptyPrompt : ToolArgs :=
  { prompt := some "", outputFile := some "o.txt", filePath := none,
    inputFile := some "/in.png" }

theorem claim_C10_witness :
    handleCallTool envKey bkStub wEmpty "manipulate_media" argsEmptyPrompt =
      handleCallTool envKey bkStub wEmpty "manipulate_media"
        (setArg argsEmptyPrompt "prompt" none) ∧
    handleCallTool envKey bkStub wEmpty "manipulate_media" argsEmptyPrompt =
      CallResult.envelope
        [{ type := "text", text := "Error: " ++ ("prompt" ++ " is required") }]
        wEmpty := by
  obtain ⟨h1, h2⟩ :=
    claim_C10 envKey bkStub wEmpty "manipulate_media" argsEmptyPrompt
      "prompt" (by decide) (by decide) (by decide) (by decide)
  exact ⟨h1, h2 (by decide)⟩

/-! ## Paths are never empty strings -/

theorem strExt : ∀ {s t : String}, s.data = t.data → s = t
  | ⟨_⟩, ⟨_⟩, h => congrArg String.mk h

theorem append_eq_empty (a b : String) (h : a ++ b = "") :
    a = "" ∧ b = "" := by
  have hd : a.data ++ b.data = [] := by
    have h2 := congrArg String.data h
    rwa [strData_append] at h2
  obtain ⟨h1, h2⟩ := List.append_eq_nil.1 hd
  exact ⟨strExt h1, strExt h2⟩

theorem renderPath_ne_empty (abs trail : Bool) (stack : List String) :
    renderPath abs trail stack ≠ "" := by
  unfold renderPath
  by_cases hjw : (joinWith stack == "") = true
  · simp only [hjw, if_true]
    cases abs <;> simp
  · have hjw' : joinWith stack ≠ "" := by simpa using hjw
    simp only [beq_eq_false_iff_ne.2 hjw', Bool.false_eq_true, if_false]
    intro h
    obtain ⟨h1, h2⟩ := append_eq_empty _ _ h
    cases abs with
    | true =>
      simp only [if_true] at h1
      obtain ⟨h3, _⟩ := append_eq_empty _ _ h1
      exact absurd (congrArg String.data h3) (by decide)
    | false =>
      simp only [Bool.false_eq_true, if_false] at h1
      exact hjw' h1

theorem pathJoin_ne_empty (a b : String) : pathJoin a b ≠ "" := by
  unfold pathJoin
  by_cases h : (a == "" && b == "") = true
  · simp only [h, if_true]
    decide
  · have h' : (a == "" && b == "") = false := by
      cases hh : (a == "" && b == "") with
      | true => exact absurd hh h
      | false => rfl
    simp only [h', Bool.false_eq_true, if_false]
    exact renderPath_ne_empty _ _ _

/-! ## Claim C3 -/

/-- Claim C3: if the generation backend answers the prompt `test` with the
plain text `hello`, then `generate_media` with
`{prompt: "test", outputFile: "out.txt"}` succeeds, writes the file
`<outputDir>/out.txt` with contents exactly `hello`, and the response's
single text content block is that bare path string. -/
theorem claim_C3 (env : Env) (bk : Backend) (w : World)
    (hkey : truthy env.apiKey = true)
    (hgen : bk.generateText "test" = Except.ok "hello")
    (hw : w.writeOk (pathJoin (effOutputDir env) "out.txt") = true) :
    handleCallTool env bk w "generate_media"
      { prompt := some "test", outputFile := some "out.txt",
        filePath := none, inputFile := none } =
      CallResult.envelope
        [{ type := "text", text := pathJoin (effOutputDir env) "out.txt" }]
        { fs := (pathJoin (effOutputDir env) "out.txt",
            FileData.text "hello") :: w.fs,
          dirs := effOutputDir env :: w.dirs, writeOk := w.writeOk } ∧
    List.lookup (pathJoin (effOutputDir env) "out.txt")
      ((pathJoin (effOutputDir env) "out.txt",
        FileData.text "hello") :: w.fs) = some (FileData.text "hello") := by
  constructor
  · have hPne := pathJoin_ne_empty (effOutputDir env) "out.txt"
    have htr : truthy (some (pathJoin (effOutputDir env) "out.txt")) = true := by
      simp [truthy, hPne]
    simp [handleCallTool, initializeClient_ok env hkey, generateMediaTool,
      truthy, generateImage, ensureOutputDir, hgen, writeFileFS, hw,
      clientOf, htr, hPne]
  · simp [List.lookup]

/-- Backend stub whose generation endpoint answers `hello`. -/
def bkHello : Backend :=
  { generateText := fun _ => Except.ok "hello",
    generateImageApi := fun _ => Except.error "stub",
    analyze := fun _ _ _ => Except.error "stub" }

theorem claim_C3_witness :
    handleCallTool envKey bkHello wEmpty "generate_media"
      { prompt := some "test", outputFile := some "out.txt",
        filePath := none, inputFile := none } =
      CallResult.envelope
        [{ type := "text", text := pathJoin (effOutputDir envKey) "out.txt" }]
        { fs := (pathJoin (effOutputDir envKey) "out.txt",
            FileData.text "hello") :: wEmpty.fs,
          dirs := effOutputDir envKey :: wEmpty.dirs,
          writeOk := wEmpty.writeOk } ∧
    List.lookup (pathJoin (effOutputDir envKey) "out.txt")
      ((pathJoin (effOutputDir envKey) "out.txt",
        FileData.text "hello") :: wEmpty.fs) = some (FileData.text "hello") :=
  claim_C3 envKey bkHello wEmpty (by decide) rfl rfl

/-! ## Claim C7 -/

/-- Claim C7: an `analyze_media` invocation (parameters supplied) on a
file path that does not exist returns a normal envelope whose single text
block is `Error: Analysis failed: <read-error>`, and leaves the world —
in particular the filesystem — completely unchanged: no file is written. -/
theorem claim_C7 (env : Env) (bk : Backend) (w : World) (args : ToolArgs)
    (hkey : truthy env.apiKey = true)
    (hfp : truthy args.filePath = true)
    (hp : truthy args.prompt = true)
    (hmiss : w.fs.lookup (args.filePath.getD "") = none) :
    handleCallTool env bk w "analyze_media" args =
      CallResult.envelope
        [{ type := "text",
           text := "Error: " ++ ("Analysis failed: " ++
             enoentMsg (args.filePath.getD "")) }] w := by
  simp [handleCallTool, initializeClient_ok env hkey, analyzeMediaTool,
    hfp, hp, analyzeMedia, readFileFS, hmiss]

/-- An analyze_media request naming a nonexistent file. -/
def argsAnalyzeMissing : ToolArgs :=
  { prompt := some "describe", outputFile := none,
    filePath := some "/nonexistent.png", inputFile := none }

theorem claim_C7_witness :
    handleCallTool envKey bkStub wEmpty "analyze_media" argsAnalyzeMissing =
      CallResult.envelope
        [{ type := "text",
           text := "Error: " ++ ("Analysis failed: " ++
             enoentMsg (argsAnalyzeMissing.filePath.getD "")) }] wEmpty :=
  claim_C7 envKey bkStub wEmpty argsAnalyzeMissing (by decide) (by decide)
    (by decide) rfl

/-! ## Claim C6 -/

/-- Claim C6: the Generation Client's public operations are total — in
this embedding each returns a `GeminiResponse` and a world for every
input, never an exception — and every failure mode (API rejection,
file-read failure, write failure) is converted to `{success := false}`
with the underlying error message embedded in `message`, so callers
branch only on the `success` flag. -/
theorem claim_C6 (c : Client) (bk : Backend) (w : World)
    (prompt outputFile filePath inputFile : String) :
    (∀ e, bk.generateText prompt = Except.error e →
      (generateImage c bk w prompt outputFile).1 =
        { success := false, message := "Generation failed: " ++ e,
          outputPath := none, data := none }) ∧
    (∀ t, bk.generateText prompt = Except.ok t →
      w.writeOk (pathJoin c.outputDir outputFile) = false →
      (generateImage c bk w prompt outputFile).1 =
        { success := false,
          message := "Generation failed: " ++
            eaccesMsg (pathJoin c.outputDir outputFile),
          outputPath := none, data := none }) ∧
    (w.fs.lookup filePath = none →
      (analyzeMedia c bk w filePath prompt).1 =
        { success := false,
          message := "Analysis failed: " ++ enoentMsg filePath,
          outputPath := none, data := none }) ∧
    (∀ d e, w.fs.lookup filePath = some d →
      bk.analyze prompt (fileToBase64 d) (getMimeType filePath) =
        Except.error e →
      (analyzeMedia c bk w filePath prompt).1 =
        { success := false, message := "Analysis failed: " ++ e,
          outputPath := none, data := none }) ∧
    (w.fs.lookup inputFile = none →
      (manipulateMedia c bk w inputFile prompt outputFile).1 =
        { success := false,
          message := "Manipulation failed: " ++ enoentMsg inputFile,
          outputPath := none, data := none }) ∧
    (∀ d e, w.fs.lookup inputFile = some d →
      bk.analyze prompt (fileToBase64 d) (getMimeType inputFile) =
        Except.error e →
      (manipulateMedia c bk w inputFile prompt outputFile).1 =
        { success := false, message := "Manipulation failed: " ++ e,
          outputPath := none, data := none }) ∧
    (∀ d t, w.fs.lookup inputFile = some d →
      bk.analyze prompt (fileToBase64 d) (getMimeType inputFile) =
        Except.ok t →
      w.writeOk (pathJoin c.outputDir outputFile) = false →
      (manipulateMedia c bk w inputFile prompt outputFile).1 =
        { success := false,
          message := "Manipulation failed: " ++
            eaccesMsg (pathJoin c.outputDir outputFile),
          outputPath := none, data := none }) := by
  refine ⟨?_, ?_, ?_, ?_, ?_, ?_, ?_⟩
  · intro e he
    simp [generateImage, ensureOutputDir, he]
  · intro t ht hw
    simp [generateImage, ensureOutputDir, ht, writeFileFS, hw]
  · intro hmiss
    simp [analyzeMedia, readFileFS, hmiss]
  · intro d e hd he
    simp [analyzeMedia, readFileFS, hd, he]
  · intro hmiss
    simp [manipulateMedia, ensureOutputDir, readFileFS, hmiss]
  · intro d e hd he
    simp [manipulateMedia, ensureOutputDir, readFileFS, hd, he]
  · intro d t hd ht hw
    simp [manipulateMedia, ensureOutputDir, readFileFS, hd, ht,
      writeFileFS, hw]

/-- The client under default configuration. -/
def cDefault : Client :=
  { modelName := "gemini-2.5-flash", outputDir := "/tmp/gemini_mcp" }

theorem claim_C6_witness :
    (generateImage cDefault bkStub wEmpty "p" "f").1 =
      { success := false, message := "Generation failed: " ++ "stub",
        outputPath := none, data := none } ∧
    (analyzeMedia cDefault bkStub wEmpty "/missing.png" "p").1 =
      { success := false,
        message := "Analysis failed: " ++ enoentMsg "/missing.png",
        outputPath := none, data := none } ∧
    (manipulateMedia cDefault bkStub wEmpty "/missing.png" "p" "f").1 =
      { success := false,
        message := "Manipulation failed: " ++ enoentMsg "/missing.png",
        outputPath := none, data := none } := by
  refine ⟨?_, ?_, ?_⟩
  · exact (claim_C6 cDefault bkStub wEmpty "p" "f" "/missing.png"
      "/missing.png").1 "stub" rfl
  · exact (claim_C6 cDefault bkStub wEmpty "p" "f" "/missing.png"
      "/missing.png").2.2.1 rfl
  · exact (claim_C6 cDefault bkStub wEmpty "p" "f" "/missing.png"
      "/missing.png").2.2.2.2.1 rfl

/-! ## Claim C5 -/

/-- Modelled from the spec's words: the fixed MIME inference table,
written as a decision chain over the (lowercased) extension exactly as the
specification sentence enumerates it. -/
def specMimeFor (e : String) : String :=
  if e = ".jpg" ∨ e = ".jpeg" then "image/jpeg"
  else if e = ".png" then "image/png"
  else if e = ".gif" then "image/gif"
  else if e = ".webp" then "image/webp"
  else if e = ".mp4" then "video/mp4"
  else if e = ".mpeg" then "video/mpeg"
  else if e = ".mov" then "video/mov"
  else if e = ".avi" then "video/avi"
  else if e = ".webm" then "video/webm"
  else if e = ".mp3" then "audio/mp3"
  else if e = ".wav" then "audio/wav"
  else if e = ".aac" then "audio/aac"
  else "application/octet-stream"

theorem lookup_eq_specMime (e : String) :
    (mimeTypesTable.lookup e).getD "application/octet-stream" =
      specMimeFor e := by
  by_cases h1 : e = ".jpg"
  · subst h1; decide
  by_cases h2 : e = ".jpeg"
  · subst h2; decide
  by_cases h3 : e = ".png"
  · subst h3; decide
  by_cases h4 : e = ".gif"
  · subst h4; decide
  by_cases h5 : e = ".webp"
  · subst h5; decide
  by_cases h6 : e = ".mp4"
  · subst h6; decide
  by_cases h7 : e = ".mpeg"
  · subst h7; decide
  by_cases h8 : e = ".mov"
  · subst h8; decide
  by_cases h9 : e = ".avi"
  · subst h9; decide
  by_cases h10 : e = ".webm"
  · subst h10; decide
  by_cases h11 : e = ".mp3"
  · subst h11; decide
  by_cases h12 : e = ".wav"
  · subst h12; decide
  by_cases h13 : e = ".aac"
  · subst h13; decide
  have b1 : (e == ".jpg") = false := beq_eq_false_iff_ne.2 h1
  have b2 : (e == ".jpeg") = false := beq_eq_false_iff_ne.2 h2
  have b3 : (e == ".png") = false := beq_eq_false_iff_ne.2 h3
  have b4 : (e == ".gif") = false := beq_eq_false_iff_ne.2 h4
  have b5 : (e == ".webp") = false := beq_eq_false_iff_ne.2 h5
  have b6 : (e == ".mp4") = false := beq_eq_false_iff_ne.2 h6
  have b7 : (e == ".mpeg") = false := beq_eq_false_iff_ne.2 h7
  have b8 : (e == ".mov") = false := beq_eq_false_iff_ne.2 h8
  have b9 : (e == ".avi") = false := beq_eq_false_iff_ne.2 h9
  have b10 : (e == ".webm") = false := beq_eq_false_iff_ne.2 h10
  have b11 : (e == ".mp3") = false := beq_eq_false_iff_ne.2 h11
  have b12 : (e == ".wav") = false := beq_eq_false_iff_ne.2 h12
  have b13 : (e == ".aac") = false := beq_eq_false_iff_ne.2 h13
  simp [mimeTypesTable, List.lookup, specMimeFor, h1, h2, h3, h4, h5, h6,
    h7, h8, h9, h10, h11, h12, h13, b1, b2, b3, b4, b5, b6, b7, b8, b9,
    b10, b11, b12, b13]

/-- Claim C5: the MIME type the client infers for a file path is exactly
the spec's fixed table applied to the path's (lowercased) extension, and
`application/octet-stream` for every extension outside the table. -/
theorem claim_C5 :
    (∀ p : String, getMimeType p = specMimeFor (toLowerStr (extname p))) ∧
    (∀ p : String,
      (∀ pair ∈ mimeTypesTable, toLowerStr (extname p) ≠ pair.1) →
      getMimeType p = "application/octet-stream") := by
  constructor
  · intro p
    simp [getMimeType, lookup_eq_specMime]
  · intro p hp
    have h1 := hp (".jpg", "image/jpeg") (by simp [mimeTypesTable])
    have h2 := hp (".jpeg", "image/jpeg") (by simp [mimeTypesTable])
    have h3 := hp (".png", "image/png") (by simp [mimeTypesTable])
    have h4 := hp (".gif", "image/gif") (by simp [mimeTypesTable])
    have h5 := hp (".webp", "image/webp") (by simp [mimeTypesTable])
    have h6 := hp (".mp4", "video/mp4") (by simp [mimeTypesTable])
    have h7 := hp (".mpeg", "video/mpeg") (by simp [mimeTypesTable])
    have h8 := hp (".mov", "video/mov") (by simp [mimeTypesTable])
    have h9 := hp (".avi", "video/avi") (by simp [mimeTypesTable])
    have h10 := hp (".webm", "video/webm") (by simp [mimeTypesTable])
    have h11 := hp (".mp3", "audio/mp3") (by simp [mimeTypesTable])
    have h12 := hp (".wav", "audio/wav") (by simp [mimeTypesTable])
    have h13 := hp (".aac", "audio/aac") (by simp [mimeTypesTable])
    rw [getMimeType, lookup_eq_specMime]
    simp [specMimeFor, h1, h2, h3, h4, h5, h6, h7, h8, h9, h10, h11, h12, h13]

theorem claim_C5_witness :
    getMimeType "b.xyz" = "application/octet-stream" ∧
    getMimeType "photo.PNG" = specMimeFor (toLowerStr (extname "photo.PNG")) :=
  ⟨claim_C5.2 "b.xyz" (by decide), claim_C5.1 "photo.PNG"⟩

/-! ## Machinery for claims C4 and C8: where joined paths end and start -/

theorem bool_eq_false {b : Bool} (h : ¬ b = true) : b = false := by
  cases b with
  | true => exact absurd rfl h
  | false => rfl

theorem strEndsWith_append (a t : String) : strEndsWith (a ++ t) t = true := by
  simp only [strEndsWith, strData_append, List.isSuffixOf_iff_suffix]
  exact List.suffix_append a.data t.data

theorem str_ne_of_data (s : String) (l : List Char) (hs : s.data = l)
    (t : String) (hlen : l.length ≠ t.data.length) : s ≠ t := by
  intro h
  rw [h] at hs
  exact hlen (by rw [← hs])

/-- `splitChars` of a slash-free list is one chunk. -/
theorem splitChars_noSlash (l : List Char) (h : ∀ c ∈ l, c ≠ '/') :
    splitChars l = [l] := by
  induction l with
  | nil => rfl
  | cons c cs ih =>
    have hc : c ≠ '/' := h c (List.mem_cons_self c cs)
    have ih' := ih (fun x hx => h x (List.mem_cons_of_mem c hx))
    simp [splitChars, ih', hc]

/-- Unfolding lemma for `splitChars` on a cons cell, given the split of
the tail. -/
theorem splitChars_cons (c : Char) (l r : List Char) (rs : List (List Char))
    (h : splitChars l = r :: rs) :
    splitChars (c :: l) =
      if c = '/' then [] :: r :: rs else (c :: r) :: rs := by
  simp only [splitChars, h]

/-- The last chunk of `splitChars (l ++ sfx)` ends with `sfx` whenever
`sfx` contains no slash. -/
theorem splitChars_last (l sfx : List Char) (hs : ∀ c ∈ sfx, c ≠ '/') :
    ∃ init q, splitChars (l ++ sfx) = init ++ [q ++ sfx] := by
  induction l with
  | nil => exact ⟨[], [], by simp [splitChars_noSlash sfx hs]⟩
  | cons c cs ih =>
    obtain ⟨init, q, hq⟩ := ih
    cases hsc : splitChars (cs ++ sfx) with
    | nil => exact absurd hsc (splitChars_ne_nil _)
    | cons r rs =>
      rw [hsc] at hq
      rw [List.cons_append, splitChars_cons c (cs ++ sfx) r rs hsc]
      by_cases hc : c = '/'
      · refine ⟨[] :: init, q, ?_⟩
        rw [if_pos hc, hq]
        rfl
      · cases init with
        | nil =>
          simp only [List.nil_append, List.cons.injEq] at hq
          refine ⟨[], c :: q, ?_⟩
          rw [if_neg hc, hq.1, hq.2]
          rfl
        | cons i it =>
          simp only [List.cons_append, List.cons.injEq] at hq
          refine ⟨(c :: i) :: it, q, ?_⟩
          rw [if_neg hc, hq.1, hq.2]
          rfl

/-- `normAcc` runs left to right. -/
theorem normAcc_append (abs : Bool) (xs ys : List String) :
    ∀ acc, normAcc abs acc (xs ++ ys) = normAcc abs (normAcc abs acc xs) ys := by
  induction xs with
  | nil => intro acc; rfl
  | cons s t ih =>
    intro acc
    by_cases h1 : (s == "" || s == ".") = true
    · simp only [List.cons_append, normAcc, h1, if_true]
      exact ih acc
    · have h1' := bool_eq_false h1
      by_cases h2 : (s == "..") = true
      · cases acc with
        | nil =>
          cases abs with
          | true =>
            simp only [List.cons_append, normAcc, h1', h2, Bool.false_eq_true,
              if_false, if_true]
            exact ih []
          | false =>
            simp only [List.cons_append, normAcc, h1', h2, Bool.false_eq_true,
              if_false, if_true]
            exact ih [".."]
        | cons t2 acc2 =>
          by_cases h3 : (t2 == "..") = true
          · simp only [List.cons_append, normAcc, h1', h2, h3,
              Bool.false_eq_true, if_false, if_true]
            exact ih (".." :: t2 :: acc2)
          · have h3' := bool_eq_false h3
            simp only [List.cons_append, normAcc, h1', h2, h3',
              Bool.false_eq_true, if_false, if_true]
            exact ih acc2
      · have h2' := bool_eq_false h2
        simp only [List.cons_append, normAcc, h1', h2', Bool.false_eq_true,
          if_false]
        exact ih (s :: acc)

/-- A single good (non-empty, non-dot, non-dotdot) segment is pushed. -/
theorem normAcc_single (abs : Bool) (acc : List String) (s : String)
    (h1 : (s == "" || s == ".") = false) (h2 : (s == "..") = false) :
    normAcc abs acc [s] = s :: acc := by
  simp [normAcc, h1, h2]

/-- Without `..` segments, normalization just filters out empty and dot
segments (into the reversed accumulator). -/
theorem normAcc_noDotDot (abs : Bool) (segs : List String)
    (h : ∀ s ∈ segs, (s == "..") = false) :
    ∀ acc, normAcc abs acc segs = (segs.filter goodSeg).reverse ++ acc := by
  induction segs with
  | nil => intro acc; simp [normAcc]
  | cons s t ih =>
    intro acc
    have hs : (s == "..") = false := h s (List.mem_cons_self s t)
    have ht : ∀ x ∈ t, (x == "..") = false :=
      fun x hx => h x (List.mem_cons_of_mem s hx)
    by_cases h1 : (s == "" || s == ".") = true
    · have hg : goodSeg s = false := by
        rcases Bool.or_eq_true_iff.1 h1 with he | hd
        · simp [goodSeg, bne, he]
        · simp [goodSeg, bne, hd]
      simp only [normAcc, h1, if_true, List.filter_cons, hg,
        Bool.false_eq_true, if_false]
      exact ih ht acc
    · have h1' := bool_eq_false h1
      have hg : goodSeg s = true := by
        have he : (s == "") = false := by
          cases hh : (s == "") with
          | true => rw [hh] at h1'; simp at h1'
          | false => rfl
        have hd : (s == ".") = false := by
          cases hh : (s == ".") with
          | true => rw [hh] at h1'; simp at h1'
          | false => rfl
        simp [goodSeg, bne, he, hd]
      simp only [normAcc, h1', hs, Bool.false_eq_true, if_false,
        List.filter_cons, hg, if_true]
      rw [ih ht (s :: acc)]
      simp

/-- A suffix of the last segment is a suffix of the joined path. -/
theorem joinWith_suffix (sfx : List Char) (s : String)
    (h : sfx <:+ s.data) :
    ∀ xs, sfx <:+ (joinWith (xs ++ [s])).data := by
  intro xs
  induction xs with
  | nil => simpa [joinWith] using h
  | cons x t ih =>
    cases t with
    | nil =>
      simp only [List.nil_append, List.cons_append, joinWith, strData_append]
      exact ih.trans (List.suffix_append _ _)
    | cons y ys =>
      simp only [List.cons_append, joinWith, strData_append]
      have ih' : sfx <:+ (joinWith ((y :: ys) ++ [s])).data := ih
      simp only [List.cons_append] at ih'
      exact ih'.trans (List.suffix_append _ _)

/-- A non-empty suffix of the joined core is a suffix of the rendered
absolute path (no trailing slash). -/
theorem renderPath_abs_endsWith (stack : List String) (sfx : List Char)
    (hsfx : sfx ≠ []) (h : sfx <:+ (joinWith stack).data) :
    sfx <:+ (renderPath true false stack).data := by
  unfold renderPath
  have hne : (joinWith stack == "") = false := by
    apply beq_eq_false_iff_ne.2
    intro hh
    rw [hh] at h
    obtain ⟨t, ht⟩ := h
    have hlen := congrArg List.length ht
    simp at hlen
    exact hsfx hlen.2
  simp only [hne, Bool.false_eq_true, if_false, if_true]
  rw [strData_append, strData_append]
  rw [show ("" : String).data = [] from rfl, List.append_nil]
  rw [show ("/" : String).data = ['/'] from rfl]
  obtain ⟨t, ht⟩ := h
  exact ⟨'/' :: t, by rw [List.cons_append, ht]; rfl⟩

/-- The normalized join of the default output directory with a filename
ending in `.png` still ends in `.png`. -/
theorem pathJoin_endsWith_png (name : String)
    (h : strEndsWith name ".png" = true) :
    strEndsWith (pathJoin "/tmp/gemini_mcp" name) ".png" = true := by
  have hsfx : (".png" : String).data = ['.', 'p', 'n', 'g'] := rfl
  have hsuf : ['.', 'p', 'n', 'g'] <:+ name.data := by
    have := (List.isSuffixOf_iff_suffix).1 h
    simpa [hsfx] using this
  obtain ⟨q, hq⟩ := hsuf
  -- name is non-empty
  have hnam : name ≠ "" := by
    intro hh
    rw [hh] at hq
    simp at hq
  have hnamb : (name == "") = false := beq_eq_false_iff_ne.2 hnam
  -- the trailing-slash flag is false: the last character is `g`
  have htrail : strEndsWith name "/" = false := by
    apply bool_eq_false
    intro hcon
    have h2 : ['/'] <:+ name.data := by
      have := (List.isSuffixOf_iff_suffix).1 hcon
      simpa using this
    obtain ⟨m, hm⟩ := h2
    rw [← hq] at hm
    have hlast := congrArg (fun l => l.getLast?) hm
    simp [List.getLast?_append] at hlast
  -- decompose the segments of name: the last one ends with ".png"
  have hslash : ∀ c ∈ (['.', 'p', 'n', 'g'] : List Char), c ≠ '/' := by decide
  obtain ⟨init, q2, hsplit⟩ := splitChars_last q ['.', 'p', 'n', 'g'] hslash
  rw [hq] at hsplit
  -- the last segment as a string
  have hlastSeg : splitSlash name =
      (init.map String.mk) ++ [String.mk (q2 ++ ['.', 'p', 'n', 'g'])] := by
    simp [splitSlash, hsplit]
  -- the last segment is a pushable segment
  have hlen : (q2 ++ ['.', 'p', 'n', 'g']).length = q2.length + 4 := by simp
  have hgood1 : ((String.mk (q2 ++ ['.', 'p', 'n', 'g']) == "") ||
      (String.mk (q2 ++ ['.', 'p', 'n', 'g']) == ".")) = false := by
    have hne1 : String.mk (q2 ++ ['.', 'p', 'n', 'g']) ≠ "" :=
      str_ne_of_data _ _ rfl "" (by simp [hlen])
    have hne2 : String.mk (q2 ++ ['.', 'p', 'n', 'g']) ≠ "." :=
      str_ne_of_data _ _ rfl "." (by simp [hlen])
    simp [beq_eq_false_iff_ne.2 hne1, beq_eq_false_iff_ne.2 hne2]
  have hgood2 : (String.mk (q2 ++ ['.', 'p', 'n', 'g']) == "..") = false := by
    have hne3 : String.mk (q2 ++ ['.', 'p', 'n', 'g']) ≠ ".." :=
      str_ne_of_data _ _ rfl ".." (by simp [hlen])
    exact beq_eq_false_iff_ne.2 hne3
  -- compute pathJoin
  rw [pathJoin]
  have hcond : (("/tmp/gemini_mcp" == "") && (name == "")) = false := by
    simp [hnamb]
  rw [if_neg (by simp [hcond])]
  have habs : strStartsWith "/tmp/gemini_mcp" "/" = true := by decide
  have hsplit3 : splitSlash "/tmp/gemini_mcp" = ["", "tmp", "gemini_mcp"] := by
    decide
  simp only [show (("/tmp/gemini_mcp" : String) == "") = false from rfl,
    hnamb, Bool.false_eq_true, if_false, habs, htrail, hsplit3, hlastSeg]
  rw [show (["", "tmp", "gemini_mcp"] ++
      ((init.map String.mk) ++ [String.mk (q2 ++ ['.', 'p', 'n', 'g'])])) =
      (["", "tmp", "gemini_mcp"] ++ init.map String.mk) ++
      [String.mk (q2 ++ ['.', 'p', 'n', 'g'])] from by simp]
  rw [normAcc_append true _ _ []]
  rw [normAcc_single true _ _ hgood1 hgood2]
  rw [List.reverse_cons]
  -- the joined core ends with ".png"
  have hcore : ['.', 'p', 'n', 'g'] <:+
      (joinWith ((normAcc true []
        (["", "tmp", "gemini_mcp"] ++ init.map String.mk)).reverse ++
        [String.mk (q2 ++ ['.', 'p', 'n', 'g'])])).data :=
    joinWith_suffix _ _ ⟨q2, rfl⟩ _
  simp only [strEndsWith, List.isSuffixOf_iff_suffix, hsfx]
  exact renderPath_abs_endsWith _ _ (by decide) hcore

theorem str_append_assoc (a b c : String) : a ++ b ++ c = a ++ (b ++ c) :=
  strExt (by simp [strData_append, List.append_assoc])

theorem isPrefixOf_append_self (l m : List Char) :
    l.isPrefixOf (l ++ m) = true := by
  simp only [List.isPrefixOf_iff_prefix]
  exact List.prefix_append l m

/-- Joining a filename with no `..` segments (and at least one real
segment) onto the default output directory lands inside that directory. -/
theorem pathJoin_isUnder_default (name : String)
    (hnd : ∀ s ∈ splitSlash name, (s == "..") = false)
    (hne : (splitSlash name).filter goodSeg ≠ []) :
    isUnder "/tmp/gemini_mcp" (pathJoin "/tmp/gemini_mcp" name) = true := by
  have hnameB : (name == "") = false := by
    apply beq_eq_false_iff_ne.2
    intro hh
    rw [hh] at hne
    exact hne (by decide)
  rw [pathJoin]
  simp only [show (("/tmp/gemini_mcp" : String) == "") = false from rfl,
    hnameB, Bool.false_and, Bool.false_eq_true, if_false,
    show strStartsWith "/tmp/gemini_mcp" "/" = true from rfl,
    show splitSlash "/tmp/gemini_mcp" = ["", "tmp", "gemini_mcp"] from
      by decide]
  rw [normAcc_append true ["", "tmp", "gemini_mcp"] (splitSlash name) []]
  rw [show normAcc true [] ["", "tmp", "gemini_mcp"] =
    ["gemini_mcp", "tmp"] from by decide]
  rw [normAcc_noDotDot true (splitSlash name) hnd ["gemini_mcp", "tmp"]]
  rw [List.reverse_append, List.reverse_reverse]
  rw [show (["gemini_mcp", "tmp"] : List String).reverse =
    ["tmp", "gemini_mcp"] from by decide]
  cases hcl : (splitSlash name).filter goodSeg with
  | nil => exact absurd hcl hne
  | cons c0 cs =>
    simp only [List.cons_append, List.nil_append]
    rw [renderPath]
    have hcore : joinWith ("tmp" :: "gemini_mcp" :: c0 :: cs) =
        "tmp" ++ "/" ++ ("gemini_mcp" ++ "/" ++ joinWith (c0 :: cs)) := rfl
    have hcne : (joinWith ("tmp" :: "gemini_mcp" :: c0 :: cs) == "") =
        false := by
      apply beq_eq_false_iff_ne.2
      intro hh
      rw [hcore] at hh
      have hd := congrArg String.data hh
      simp [strData_append] at hd
    simp only [List.cons_append, hcne, Bool.false_eq_true, if_false, if_true]
    rw [isUnder, strStartsWith]
    have hpre : (("/tmp/gemini_mcp" : String) ++ "/").data =
        ['/', 't', 'm', 'p', '/', 'g', 'e', 'm', 'i', 'n', 'i', '_', 'm',
         'c', 'p', '/'] := rfl
    rw [hpre, hcore]
    have key : ∀ tb : String,
        (("/" ++ ("tmp" ++ "/" ++ ("gemini_mcp" ++ "/" ++
          joinWith (c0 :: cs)))) ++ tb).data =
        ['/', 't', 'm', 'p', '/', 'g', 'e', 'm', 'i', 'n', 'i', '_', 'm',
         'c', 'p', '/'] ++ ((joinWith (c0 :: cs)).data ++ tb.data) := by
      intro tb
      simp [strData_append,
        show ("/" : String).data = ['/'] from rfl,
        show ("tmp" : String).data = ['t', 'm', 'p'] from rfl,
        show ("gemini_mcp" : String).data =
          ['g', 'e', 'm', 'i', 'n', 'i', '_', 'm', 'c', 'p'] from rfl,
        List.append_assoc]
    rw [key]
    exact isPrefixOf_append_self _ _

/-! ## Claim C4 -/

/-- Claim C4: when the image-generating `generateImage` variant receives a
binary response part with MIME type `image/png`, the written file's path
is `path.join(outputDir, outputFile)` with `.png` appended exactly when
`outputFile` does not already end in `.png`; the resulting path always
ends in `.png`, and a name already ending in `.png` is used unchanged. -/
theorem claim_C4 (c : Client) (bk : Backend) (w : World)
    (prompt outputFile : String) (d : InlineData) (cand : Candidate)
    (rest : List Candidate)
    (hdir : c.outputDir = "/tmp/gemini_mcp")
    (hapi : bk.generateImageApi prompt =
      Except.ok { candidates := cand :: rest })
    (hinl : findInline cand.parts = some d)
    (hmime : d.mimeType = some "image/png")
    (hw : w.writeOk (pathJoin "/tmp/gemini_mcp"
      (if strEndsWith outputFile ".png" then outputFile
       else outputFile ++ ".png")) = true) :
    (generateImageV2 c bk w prompt outputFile).1.success = true ∧
    (generateImageV2 c bk w prompt outputFile).1.outputPath =
      some (pathJoin "/tmp/gemini_mcp"
        (if strEndsWith outputFile ".png" then outputFile
         else outputFile ++ ".png")) ∧
    (generateImageV2 c bk w prompt outputFile).2.fs =
      (pathJoin "/tmp/gemini_mcp"
        (if strEndsWith outputFile ".png" then outputFile
         else outputFile ++ ".png"),
       FileData.binary (b64decode d.data)) :: w.fs ∧
    strEndsWith (pathJoin "/tmp/gemini_mcp"
      (if strEndsWith outputFile ".png" then outputFile
       else outputFile ++ ".png")) ".png" = true ∧
    (strEndsWith outputFile ".png" = true →
      (if strEndsWith outputFile ".png" then outputFile
       else outputFile ++ ".png") = outputFile) := by
  have hfend : strEndsWith
      (if strEndsWith outputFile ".png" then outputFile
       else outputFile ++ ".png") ".png" = true := by
    cases hend : strEndsWith outputFile ".png" with
    | true => simp [hend]
    | false =>
      simp only [hend, Bool.false_eq_true, if_false]
      exact strEndsWith_append outputFile ".png"
  have hPend := pathJoin_endsWith_png _ hfend
  have hext : extFromMime "image/png" = "png" := by decide
  have hdot : ("." : String) ++ "png" = ".png" := rfl
  have hfix : outputFile ++ "." ++ "png" = outputFile ++ ".png" := by
    rw [str_append_assoc, hdot]
  refine ⟨?_, ?_, ?_, hPend, fun h => by simp [h]⟩ <;>
    simp only [generateImageV2, ensureOutputDir, hapi, hinl, hmime, hdir,
      orDefault, show (("image/png" : String) != "") = true from rfl,
      if_true, hext, hdot, hfix, writeFileFS, hw]

/-- A concrete base64 `inlineData` part with MIME type `image/png`. -/
def pngInline : InlineData :=
  { data := "QUJD", mimeType := some "image/png" }

/-- A one-part candidate carrying `pngInline`. -/
def pngCand : Candidate :=
  { parts := [{ inlineData := some pngInline }] }

/-- Backend stub whose image endpoint returns one base64 `inlineData`
part with MIME type `image/png`. -/
def bkPng : Backend :=
  { generateText := fun _ => Except.error "stub",
    generateImageApi := fun _ => Except.ok { candidates := [pngCand] },
    analyze := fun _ _ _ => Except.error "stub" }

theorem claim_C4_witness :
    (generateImageV2 cDefault bkPng wEmpty "p" "pic").1.success = true ∧
    (generateImageV2 cDefault bkPng wEmpty "p" "pic").1.outputPath =
      some (pathJoin "/tmp/gemini_mcp"
        (if strEndsWith "pic" ".png" then "pic" else "pic" ++ ".png")) ∧
    (generateImageV2 cDefault bkPng wEmpty "p" "pic").2.fs =
      (pathJoin "/tmp/gemini_mcp"
        (if strEndsWith "pic" ".png" then "pic" else "pic" ++ ".png"),
       FileData.binary (b64decode "QUJD")) :: wEmpty.fs ∧
    strEndsWith (pathJoin "/tmp/gemini_mcp"
      (if strEndsWith "pic" ".png" then "pic" else "pic" ++ ".png"))
      ".png" = true ∧
    (strEndsWith "pic" ".png" = true →
      (if strEndsWith "pic" ".png" then "pic" else "pic" ++ ".png") =
        "pic") :=
  claim_C4 cDefault bkPng wEmpty "p" "pic" pngInline pngCand []
    rfl rfl rfl rfl rfl

/-! ## Claim C8 -/

/-- Claim C8 counterexample: with the default output directory, a
`generate_media` call whose `outputFile` is `../escape.txt` makes the
server write `/tmp/escape.txt` — the join of the output directory with the
caller-supplied name after `..` normalization — which does NOT lie inside
`/tmp/gemini_mcp`.  So "for every value of outputFile the written path
lies inside the output directory" is false. -/
theorem claim_C8_counterexample :
    handleCallTool envKey bkHello wEmpty "generate_media"
      { prompt := some "p", outputFile := some "../escape.txt",
        filePath := none, inputFile := none } =
      CallResult.envelope [{ type := "text", text := "/tmp/escape.txt" }]
        { fs := [("/tmp/escape.txt", FileData.text "hello")],
          dirs := ["/tmp/gemini_mcp"], writeOk := wEmpty.writeOk } ∧
    isUnder "/tmp/gemini_mcp" "/tmp/escape.txt" = false :=
  ⟨rfl, rfl⟩

/-- Claim C8 as amended: every file the generate/manipulate operations
write is located exactly at `path.join(outputDir, name)` (with `name` the
caller-supplied `outputFile`, extension-adjusted in the image-generating
variant), and — under the default output directory — that path lies
inside the output directory whenever the caller-supplied name contains no
`..` segment and names at least one real segment; a name with `..`
segments can escape the directory. -/
theorem claim_C8_amended (c : Client) (bk : Backend) (w : World)
    (prompt outputFile inputFile : String) :
    ((generateImage c bk w prompt outputFile).2.fs = w.fs ∨
      ∃ dta, (generateImage c bk w prompt outputFile).2.fs =
        (pathJoin c.outputDir outputFile, dta) :: w.fs) ∧
    ((manipulateMedia c bk w inputFile prompt outputFile).2.fs = w.fs ∨
      ∃ dta, (manipulateMedia c bk w inputFile prompt outputFile).2.fs =
        (pathJoin c.outputDir outputFile, dta) :: w.fs) ∧
    ((generateImageV2 c bk w prompt outputFile).2.fs = w.fs ∨
      ∃ dta ext, (generateImageV2 c bk w prompt outputFile).2.fs =
        (pathJoin c.outputDir
          (if strEndsWith outputFile ("." ++ ext) then outputFile
           else outputFile ++ "." ++ ext), dta) :: w.fs) ∧
    (c.outputDir = "/tmp/gemini_mcp" →
      (∀ s ∈ splitSlash outputFile, (s == "..") = false) →
      (splitSlash outputFile).filter goodSeg ≠ [] →
      isUnder "/tmp/gemini_mcp" (pathJoin "/tmp/gemini_mcp" outputFile) =
        true) := by
  refine ⟨?_, ?_, ?_,
    fun _ hnd hne => pathJoin_isUnder_default outputFile hnd hne⟩
  · cases hg : bk.generateText prompt with
    | error e => left; simp [generateImage, ensureOutputDir, hg]
    | ok t =>
      cases hwk : w.writeOk (pathJoin c.outputDir outputFile) with
      | false =>
        left
        simp [generateImage, ensureOutputDir, writeFileFS, hg, hwk]
      | true =>
        right
        exact ⟨FileData.text t,
          by simp [generateImage, ensureOutputDir, writeFileFS, hg, hwk]⟩
  · cases hr : w.fs.lookup inputFile with
    | none => left; simp [manipulateMedia, ensureOutputDir, readFileFS, hr]
    | some fd =>
      cases ha : bk.analyze prompt (fileToBase64 fd) (getMimeType inputFile)
        with
      | error e =>
        left
        simp [manipulateMedia, ensureOutputDir, readFileFS, hr, ha]
      | ok t =>
        cases hwk : w.writeOk (pathJoin c.outputDir outputFile) with
        | false =>
          left
          simp [manipulateMedia, ensureOutputDir, readFileFS, hr, ha,
            writeFileFS, hwk]
        | true =>
          right
          exact ⟨FileData.text t,
            by simp [manipulateMedia, ensureOutputDir, readFileFS, hr, ha,
              writeFileFS, hwk]⟩
  · cases hga : bk.generateImageApi prompt with
    | error e => left; simp [generateImageV2, ensureOutputDir, hga]
    | ok resp =>
      obtain ⟨cands⟩ := resp
      cases cands with
      | nil => left; simp [generateImageV2, ensureOutputDir, hga]
      | cons cand restc =>
        cases hfi : findInline cand.parts with
        | none => left; simp [generateImageV2, ensureOutputDir, hga, hfi]
        | some d =>
          cases hwk : w.writeOk (pathJoin c.outputDir
            (if strEndsWith outputFile
                ("." ++ extFromMime (orDefault d.mimeType "image/png"))
             then outputFile
             else outputFile ++ "." ++
               extFromMime (orDefault d.mimeType "image/png"))) with
          | false =>
            left
            simp [generateImageV2, ensureOutputDir, hga, hfi, writeFileFS,
              hwk]
          | true =>
            right
            refine ⟨FileData.binary (b64decode d.data),
              extFromMime (orDefault d.mimeType "image/png"), ?_⟩
            simp [generateImageV2, ensureOutputDir, hga, hfi, writeFileFS,
              hwk]

theorem claim_C8_amended_witness :
    isUnder "/tmp/gemini_mcp" (pathJoin "/tmp/gemini_mcp" "out.txt") =
      true :=
  (claim_C8_amended cDefault bkStub wEmpty "p" "out.txt" "/in.png").2.2.2
    rfl (by decide) (by decide)
